import Mathlib

/-!
# Streaming client of ka2n/zaif (`streaming.go`)

A shallow embedding of the `Stream` client: the subscription registry, the
bulk dial of `Receive` with its rollback, the keepalive and reader tasks, the
wait on the task group, the cleanup of the connections, and `Close`.

Conventions of the embedding.

* A Go map `map[string]V` is an association list with distinct keys
  (`AList`).  The order in which `range` visits a map is not specified by the
  language, so every `range` loop takes a schedule (`List Nat`) which selects
  the visiting order; every order is selected by some schedule.
* A channel value is `none` (the nil channel) or `some id`; the set of closed
  channels is part of the state, and so is the log of delivered messages.
* A connection is an identifier allocated by a successful dial; the set of
  closed connections is part of the state.
* Everything the client cannot decide (dial results, ping write results, read
  results, cancellation of the context, readiness of a receiver) is read from
  a `World`.
* A Go `error` is its message; `nil` is `none`.
* An operation ends in `Outcome.ret` (it returned), `Outcome.panic` (a run-time
  panic) or `Outcome.blocked` (it waits forever in the state given).
-/

namespace Zaif

/-! ## Data model -/

/-- Trade is one element of the `trades` field of a feed update. -/
structure Trade where
  CurrentyPair : String
  TradeType : String
  Price : Float
  CurrencyPair : String
  Tid : Int
  Amount : Float
  Date : Int

/-- LastPrice is the `last_price` field of a feed update. -/
structure LastPrice where
  Action : String
  Price : Float

/-- StreamResponse is one decoded feed update.  The client never inspects it:
it only moves the decoded value from the connection to the channel. -/
structure StreamResponse where
  Asks : List (List Float)
  Bids : List (List Float)
  TargetUsers : List String
  Trades : List Trade
  LastPrice : LastPrice
  CurrencyPair : String
  Timestamp : String

/-- Chan is a value of type `chan *StreamResponse`: nil or a channel object. -/
abbrev Chan := Option Nat

/-- Conn is a non-nil `*websocket.Conn`, named by the number of its dial. -/
abbrev Conn := Nat

/-- GoMap is a `map[string]V`. -/
abbrev GoMap (V : Type) := AList (fun _ : String => V)

/-- Task is a function handed to `wg.Go` together with the variables it
captured: the keepalive task of a connection, or its reader task. -/
inductive Task where
  | keepalive (pair : String) (conn : Conn)
  | reader (pair : String) (conn : Conn) (c : Chan)
deriving DecidableEq

/-- The pair a task works for. -/
def Task.pair : Task → String
  | .keepalive pair _ => pair
  | .reader pair _ _ => pair

/-- Stream is the client.  The first five fields are the fields of the Go
struct (`mu` is true while the mutex is held); the others are the part of the
environment the client acts on: which channels and connections are closed,
the number of the next connection, the messages sent so far on each channel,
and the tasks started so far with `wg.Go`. -/
structure Stream where
  subscriptions : GoMap Chan
  connections : GoMap Conn
  connected : Bool
  mu : Bool
  Error : Option String
  closedChans : List Nat
  closedConns : List Nat
  nextConn : Nat
  delivered : List (Nat × StreamResponse)
  spawned : List Task

/-- NewStream is the constructor: empty maps, not connected, mutex free. -/
def NewStream : Stream :=
  { subscriptions := ∅, connections := ∅, connected := false, mu := false,
    Error := none, closedChans := [], closedConns := [], nextConn := 0,
    delivered := [], spawned := [] }

/-- Fault is the kind of a run-time panic of a channel operation. -/
inductive Fault where
  | closeNilChannel
  | closeClosedChannel
  | sendClosedChannel
deriving DecidableEq

/-- Outcome is how an operation ends, with the state it ends in. -/
inductive Outcome (α : Type) where
  | ret (v : α) (s : Stream)
  | panic (f : Fault) (s : Stream)
  | blocked (s : Stream)

/-- The state an operation ends in. -/
def Outcome.state {α : Type} : Outcome α → Stream
  | .ret _ s => s
  | .panic _ s => s
  | .blocked s => s

/-- KeepaliveEvent is what the `select` of the keepalive task receives: a tick
(with the result of the ping write that follows it) or the cancellation. -/
inductive KeepaliveEvent where
  | tick (writeErr : Option String)
  | done

/-- ReadStep is what one turn of the reader loop observes: whether the context
is cancelled before the read, the result of `conn.ReadJSON`, whether the
context is cancelled after the read, and whether a send on the subscriber
channel can complete. -/
structure ReadStep where
  doneBefore : Bool
  read : Except String StreamResponse
  doneAfter : Bool
  ready : Bool

/-- World gathers everything decided outside the client during one call of
`Receive`: the result of the dial of each pair (`some e` is a failure; the
keys of a map are distinct, so a call dials a pair at most once), the visiting
order of each `range` loop, the completion order of the tasks, and the events
seen by the keepalive and reader tasks of each pair. -/
structure World where
  dial : String → Option String
  dialOrder : List Nat
  connCloseOrder : List Nat
  subCloseOrder : List Nat
  spawnOrder : List Nat
  finishOrder : List Nat
  cleanupOrder : List Nat
  ticks : String → List KeepaliveEvent
  reads : String → List ReadStep

/-! ## Iteration order of `range` -/

/-- Remove the element at a position, returning it with the others. -/
def pickAt {α : Type} : Nat → List α → Option (α × List α)
  | _, [] => none
  | 0, x :: xs => some (x, xs)
  | n + 1, x :: xs =>
    match pickAt n xs with
    | some (y, r) => some (y, x :: r)
    | none => none

/-- The order in which a `range` loop visits the entries `l`: the schedule
picks the next entry among those not visited yet; when the schedule is used
up the others follow in stored order. -/
def rangeOrder {α : Type} : List Nat → List α → List α
  | [], l => l
  | n :: ns, l =>
    match pickAt (n % l.length) l with
    | some (y, r) => y :: rangeOrder ns r
    | none => l

/-! ## Primitive operations -/

/-- The call `s.mu.Lock()`: `none` when the mutex is held (the caller waits). -/
def Stream.lock (s : Stream) : Option Stream :=
  if s.mu then none else some { s with mu := true }

/-- The call `s.mu.Unlock()`. -/
def Stream.unlock (s : Stream) : Stream :=
  { s with mu := false }

/-- The builtin `close(c)`: panics on the nil channel and on a closed one. -/
def closeChan (c : Chan) (s : Stream) : Except Fault Stream :=
  match c with
  | none => .error .closeNilChannel
  | some id =>
    if id ∈ s.closedChans then .error .closeClosedChannel
    else .ok { s with closedChans := id :: s.closedChans }

/-- The call `conn.Close()`, its result ignored. -/
def closeConn (conn : Conn) (s : Stream) : Stream :=
  { s with closedConns := conn :: s.closedConns }

/-- The statement `c <- &res`: waits forever on the nil channel, panics on a
closed channel, and otherwise completes when a receiver or a buffer slot is
ready. -/
def chanSend (c : Chan) (res : StreamResponse) (ready : Bool) (s : Stream) : Outcome Unit :=
  match c with
  | none => .blocked s
  | some id =>
    if id ∈ s.closedChans then .panic .sendClosedChannel s
    else if ready then .ret () { s with delivered := s.delivered ++ [(id, res)] }
    else .blocked s

/-- The message of `errors.Wrap(err, msg)`. -/
def wrap (err : String) (msg : String) : String :=
  msg ++ ": " ++ err

/-! ## AddSubscription -/

/-- AddSubscription stores the channel of a pair under the mutex. -/
def AddSubscription (s : Stream) (pair : String) (res : Chan) : Outcome (Option String) :=
  match s.lock with
  | none => .blocked s
  | some s1 =>
    .ret none ({ s1 with subscriptions := s1.subscriptions.insert pair res }).unlock

/-! ## Receive -/

/-- The dial loop of `Receive` over the keys in visiting order: stops at the
first failure with its error, and stores each new connection otherwise. -/
def dialAll (dial : String → Option String) : List String → Stream → Option String × Stream
  | [], s => (none, s)
  | k :: ks, s =>
    match dial k with
    | some err => (some err, s)
    | none =>
      dialAll dial ks
        { s with connections := s.connections.insert k s.nextConn, nextConn := s.nextConn + 1 }

/-- The loop `for _, conn := range s.connections { conn.Close() }`. -/
def closeConns : List Conn → Stream → Stream
  | [], s => s
  | conn :: rest, s => closeConns rest (closeConn conn s)

/-- The loop `for _, sub := range s.subscriptions { close(sub) }`. -/
def closeChans : List Chan → Stream → Outcome Unit
  | [], s => .ret () s
  | c :: rest, s =>
    match closeChan c s with
    | .error f => .panic f s
    | .ok s1 => closeChans rest s1

/-- The tasks started by the loop `for pair, conn := range s.connections`:
for each connection a keepalive task and a reader task, the reader capturing
`c := s.subscriptions[pair]` (nil when the pair has no entry). -/
def spawnTasks (s : Stream) : List (Sigma fun _ : String => Conn) → List Task
  | [] => []
  | e :: rest =>
    .keepalive e.1 e.2 :: .reader e.1 e.2 ((s.subscriptions.lookup e.1).getD none)
      :: spawnTasks s rest

/-- The rollback of `Receive` after a failed dial: close every connection of
the connection map, then close every registered channel.  Nothing is removed
from either map. -/
def rollback (s : Stream) (w : World) : Outcome Unit :=
  let s1 := closeConns ((rangeOrder w.connCloseOrder s.connections.entries).map (·.2)) s
  closeChans ((rangeOrder w.subCloseOrder s1.subscriptions.entries).map (·.2)) s1

/-- StartResult is the result of `Receive` up to `wg.Wait()`: it ended before
starting any task, or it started the tasks and released the mutex. -/
inductive StartResult where
  | aborted (o : Outcome (Option String))
  | running (tasks : List Task) (s : Stream)

/-- The part of `Receive` before `wg.Wait()`.  The early return on
`s.connected` does not unlock; the return after a failed dial does. -/
def receiveStart (s : Stream) (w : World) : StartResult :=
  match s.lock with
  | none => .aborted (.blocked s)
  | some s1 =>
    if s1.connected then .aborted (.ret (some "already started") s1)
    else
      match dialAll w.dial (rangeOrder w.dialOrder s1.subscriptions.keys)
          { s1 with connected := true } with
      | (some err, s3) =>
        match rollback s3 w with
        | .ret _ s5 => .aborted (.ret (some err) s5.unlock)
        | .panic f s5 => .aborted (.panic f s5)
        | .blocked s5 => .aborted (.blocked s5)
      | (none, s3) =>
        let tasks := spawnTasks s3 (rangeOrder w.spawnOrder s3.connections.entries)
        .running tasks ({ s3 with spawned := s3.spawned ++ tasks }).unlock

/-- The state in which the dial loop of a call of `Receive` on `s` starts: the
mutex taken and the connected flag set. -/
def dialStart (s : Stream) : Stream :=
  { s with mu := true, connected := true }

/-- The keepalive task: `none` while it still waits in its `select`. -/
def keepalive (pair : String) : List KeepaliveEvent → Option (Option String)
  | [] => none
  | .tick none :: evs => keepalive pair evs
  | .tick (some err) :: _ => some (some (wrap err ("pair: " ++ pair)))
  | .done :: _ => some none

/-- One turn of the reader loop; `ret none` means the loop goes on and
`ret (some e)` means the task returns `e`. -/
def readerIter (pair : String) (c : Chan) (i : ReadStep) (s : Stream) :
    Outcome (Option (Option String)) :=
  if i.doneBefore then .ret (some none) s
  else
    match i.read with
    | .error err => .ret (some (some (wrap err ("pair: " ++ pair)))) s
    | .ok res =>
      if i.doneAfter then .ret (some none) s
      else
        match s.lock with
        | none => .blocked s
        | some s1 =>
          if s1.connected then
            match chanSend c res i.ready s1 with
            | .ret _ s2 => .ret none s2.unlock
            | .panic f s2 => .panic f s2
            | .blocked s2 => .blocked s2
          else .ret none s1.unlock

/-- The reader task; it waits in `ReadJSON` when no more input comes. -/
def reader (pair : String) (c : Chan) : List ReadStep → Stream → Outcome (Option String)
  | [], s => .blocked s
  | i :: rest, s =>
    match readerIter pair c i s with
    | .ret none s1 => reader pair c rest s1
    | .ret (some r) s1 => .ret r s1
    | .panic f s1 => .panic f s1
    | .blocked s1 => .blocked s1

/-- Run one task to its end on the events the world has for its pair. -/
def runTask (w : World) : Task → Stream → Outcome (Option String)
  | .keepalive pair _, s =>
    match keepalive pair (w.ticks pair) with
    | some r => .ret r s
    | none => .blocked s
  | .reader pair _ c, s => reader pair c (w.reads pair) s

/-- The call `wg.Wait()`: every task must end, and the first error in
completion order is the result. -/
def wgWait (w : World) : List Task → Option String → Stream → Outcome (Option String)
  | [], first, s => .ret first s
  | t :: ts, first, s =>
    match runTask w t s with
    | .ret r s1 => wgWait w ts (if first.isSome then first else r) s1
    | .panic f s1 => .panic f s1
    | .blocked s1 => .blocked s1

/-- The cleanup loop `for k, conn := range s.connections`. -/
def cleanupConns : List (Sigma fun _ : String => Conn) → Stream → Stream
  | [], s => s
  | e :: rest, s =>
    let s1 := closeConn e.2 s
    cleanupConns rest { s1 with connections := s1.connections.erase e.1 }

/-- The part of `Receive` after `wg.Wait()` has returned `err`. -/
def receiveFinish (err : Option String) (s : Stream) (w : World) : Outcome (Option String) :=
  match s.lock with
  | none => .blocked s
  | some s1 =>
    .ret err (cleanupConns (rangeOrder w.cleanupOrder s1.connections.entries) s1).unlock

/-- Receive, run without any other call in between. -/
def Receive (s : Stream) (w : World) : Outcome (Option String) :=
  match receiveStart s w with
  | .aborted o => o
  | .running tasks s1 =>
    match wgWait w (rangeOrder w.finishOrder tasks) none s1 with
    | .ret err s2 => receiveFinish err s2 w
    | .panic f s2 => .panic f s2
    | .blocked s2 => .blocked s2

/-! ## Close -/

/-- The loop of `Close` over the registry entries in visiting order. -/
def closeSubs : List (Sigma fun _ : String => Chan) → Stream → Outcome Unit
  | [], s => .ret () s
  | e :: rest, s =>
    match closeChan e.2 s with
    | .error f => .panic f s
    | .ok s1 =>
      closeSubs rest
        { s1 with subscriptions := (s1.subscriptions.insert e.1 none).erase e.1 }

/-- Close; the deferred `Unlock` also runs when the loop panics. -/
def Close (s : Stream) (order : List Nat) : Outcome (Option String) :=
  match s.lock with
  | none => .blocked s
  | some s1 =>
    match closeSubs (rangeOrder order s1.subscriptions.entries) s1 with
    | .ret _ s2 => .ret none ({ s2 with connected := false }).unlock
    | .panic f s2 => .panic f s2.unlock
    | .blocked s2 => .blocked s2

/-! ## Sample states and worlds -/

/-- A world in which every dial succeeds and no task sees any event. -/
def quietWorld : World :=
  { dial := fun _ => none, dialOrder := [], connCloseOrder := [], subCloseOrder := [],
    spawnOrder := [], finishOrder := [], cleanupOrder := [],
    ticks := fun _ => [], reads := fun _ => [] }

/-- A world in which the dial of `eth_jpy` fails and every other dial succeeds. -/
def ethDownWorld : World :=
  { quietWorld with dial := fun k => if k = "eth_jpy" then some "bad handshake" else none }

/-- A world in which every dial succeeds and the context is cancelled at once:
each keepalive task sees the cancellation and each reader sees it before its
first read. -/
def cancelWorld : World :=
  { quietWorld with
    ticks := fun _ => [.done],
    reads := fun _ =>
      [{ doneBefore := true, read := .error "", doneAfter := true, ready := false }] }

/-- A world in which every dial succeeds, the read on `btc_jpy` fails with
`unexpected EOF`, and every other task ends on the cancellation. -/
def readFailWorld : World :=
  { quietWorld with
    ticks := fun _ => [.done],
    reads := fun k =>
      if k = "btc_jpy" then
        [{ doneBefore := false, read := .error "unexpected EOF", doneAfter := false,
           ready := false }]
      else [{ doneBefore := true, read := .error "", doneAfter := true, ready := false }] }

/-- A fresh client with channel 0 registered for `btc_jpy`. -/
def oneSub : Stream :=
  { NewStream with subscriptions := (∅ : GoMap Chan).insert "btc_jpy" (some 0) }

/-- A fresh client with channel 0 registered for `eth_jpy` and channel 1 for
`btc_jpy`. -/
def twoSubs : Stream :=
  { NewStream with
    subscriptions := ((∅ : GoMap Chan).insert "eth_jpy" (some 0)).insert "btc_jpy" (some 1) }

/-- A fresh client with the same channel 0 registered for two pairs. -/
def sharedSubs : Stream :=
  { NewStream with
    subscriptions := ((∅ : GoMap Chan).insert "eth_jpy" (some 0)).insert "btc_jpy" (some 0) }

/-- A fresh client with the nil channel registered for `eth_jpy`. -/
def nilSub : Stream :=
  { NewStream with subscriptions := (∅ : GoMap Chan).insert "eth_jpy" none }

/-- A fresh client with channel 0 registered for `eth_jpy`, the channel
already closed by its owner. -/
def closedSub : Stream :=
  { NewStream with
    subscriptions := (∅ : GoMap Chan).insert "eth_jpy" (some 0), closedChans := [0] }

/-- A client with a session running: one subscription, one open connection,
the flag set and the mutex free. -/
def runningOne : Stream :=
  { oneSub with
    connections := (∅ : GoMap Conn).insert "btc_jpy" 0, connected := true, nextConn := 1,
    spawned := [.keepalive "btc_jpy" 0, .reader "btc_jpy" 0 (some 0)] }

/-- A decoded message. -/
def sampleMsg : StreamResponse :=
  { Asks := [], Bids := [], TargetUsers := [], Trades := [],
    LastPrice := { Action := "", Price := 0 },
    CurrencyPair := "btc_jpy", Timestamp := "2018-01-01 00:00:00" }

/-- A turn of the reader loop that decodes `sampleMsg` with the context live
and no receiver ready. -/
def stalledStep : ReadStep :=
  { doneBefore := false, read := .ok sampleMsg, doneAfter := false, ready := false }

/-- A turn of the reader loop that decodes `sampleMsg` with the context live
and a receiver ready. -/
def readyStep : ReadStep :=
  { doneBefore := false, read := .ok sampleMsg, doneAfter := false, ready := true }

end Zaif

namespace Zaif

/-! ## The visiting order is a permutation -/

theorem pickAt_perm {α : Type} (n : Nat) (l : List α) (y : α) (r : List α)
    (h : pickAt n l = some (y, r)) : l.Perm (y :: r) := by
  induction l generalizing n y r with
  | nil => simp [pickAt] at h
  | cons x xs ih =>
    cases n with
    | zero =>
      simp only [pickAt, Option.some.injEq, Prod.mk.injEq] at h
      obtain ⟨rfl, rfl⟩ := h
      exact List.Perm.refl _
    | succ n =>
      simp only [pickAt] at h
      cases hp : pickAt n xs with
      | none => simp [hp] at h
      | some q =>
        obtain ⟨y1, r1⟩ := q
        simp only [hp, Option.some.injEq, Prod.mk.injEq] at h
        obtain ⟨rfl, rfl⟩ := h
        exact ((ih n y1 r1 hp).cons x).trans (List.Perm.swap _ _ _)

theorem rangeOrder_perm {α : Type} (ns : List Nat) (l : List α) :
    (rangeOrder ns l).Perm l := by
  induction ns generalizing l with
  | nil => exact List.Perm.refl _
  | cons n ns ih =>
    simp only [rangeOrder]
    cases hp : pickAt (n % l.length) l with
    | none => exact List.Perm.refl _
    | some q =>
      obtain ⟨y, r⟩ := q
      exact ((ih r).cons y).trans (pickAt_perm _ _ _ _ hp).symm

theorem mem_rangeOrder {α : Type} (ns : List Nat) (l : List α) (x : α) :
    x ∈ rangeOrder ns l ↔ x ∈ l :=
  (rangeOrder_perm ns l).mem_iff

theorem rangeOrder_nodup {α : Type} (ns : List Nat) (l : List α) (h : l.Nodup) :
    (rangeOrder ns l).Nodup :=
  (rangeOrder_perm ns l).nodup_iff.mpr h

theorem rangeOrder_eq_nil {α : Type} (ns : List Nat) (l : List α) :
    rangeOrder ns l = [] ↔ l = [] := by
  constructor
  · intro h
    have := (rangeOrder_perm ns l).symm
    rw [h] at this
    exact List.Perm.eq_nil this
  · intro h
    subst h
    exact List.Perm.eq_nil (rangeOrder_perm ns [])

theorem pickAt_of_mem {α : Type} (y : α) (l : List α) (h : y ∈ l) :
    ∃ i r, i < l.length ∧ pickAt i l = some (y, r) := by
  induction l with
  | nil => simp at h
  | cons x xs ih =>
    by_cases hx : y = x
    · subst hx
      exact ⟨0, xs, by simp, rfl⟩
    · have hy : y ∈ xs := by
        rcases List.mem_cons.mp h with h1 | h1
        · exact absurd h1 hx
        · exact h1
      obtain ⟨i, r, hi, hp⟩ := ih hy
      exact ⟨i + 1, x :: r, by simp only [List.length_cons]; omega, by simp only [pickAt, hp]⟩

theorem rangeOrder_complete {α : Type} (p l : List α) (h : p.Perm l) :
    ∃ ns, rangeOrder ns l = p := by
  induction p generalizing l with
  | nil =>
    have : l = [] := List.Perm.eq_nil h.symm
    exact ⟨[], by rw [this]; rfl⟩
  | cons y p ih =>
    have hy : y ∈ l := h.subset (List.mem_cons_self _ _)
    obtain ⟨i, r, hi, hp⟩ := pickAt_of_mem y l hy
    have hr : p.Perm r := List.Perm.cons_inv (h.trans (pickAt_perm i l y r hp))
    obtain ⟨ns, hns⟩ := ih r hr
    refine ⟨i :: ns, ?_⟩
    simp only [rangeOrder, Nat.mod_eq_of_lt hi, hp, hns]

/-! ## The mutex -/

theorem lock_free (s : Stream) (h : s.mu = false) : s.lock = some { s with mu := true } := by
  simp [Stream.lock, h]

theorem lock_held (s : Stream) (h : s.mu = true) : s.lock = none := by
  simp [Stream.lock, h]

/-! ## The dial loop -/

theorem dialAll_frame (dial : String → Option String) (ks : List String) (s : Stream) :
    (dialAll dial ks s).2.subscriptions = s.subscriptions ∧
    (dialAll dial ks s).2.connected = s.connected ∧
    (dialAll dial ks s).2.mu = s.mu ∧
    (dialAll dial ks s).2.closedChans = s.closedChans ∧
    (dialAll dial ks s).2.closedConns = s.closedConns ∧
    (dialAll dial ks s).2.spawned = s.spawned ∧
    (dialAll dial ks s).2.delivered = s.delivered ∧
    s.nextConn ≤ (dialAll dial ks s).2.nextConn := by
  induction ks generalizing s with
  | nil => simp [dialAll]
  | cons k ks ih =>
    simp only [dialAll]
    cases hd : dial k with
    | some err => simp
    | none =>
      simp only
      obtain ⟨h1, h2, h3, h4, h5, h6, h7, h8⟩ := ih
        { s with connections := s.connections.insert k s.nextConn, nextConn := s.nextConn + 1 }
      refine ⟨h1, h2, h3, h4, h5, h6, h7, ?_⟩
      simp only at h8
      omega

theorem dialAll_error (dial : String → Option String) (ks : List String) (s : Stream)
    (err : String) (h : (dialAll dial ks s).1 = some err) :
    ∃ k ∈ ks, dial k = some err := by
  induction ks generalizing s with
  | nil => simp [dialAll] at h
  | cons k ks ih =>
    simp only [dialAll] at h
    cases hd : dial k with
    | some e =>
      simp only [hd, Option.some.injEq] at h
      exact ⟨k, List.mem_cons_self _ _, by rw [hd, h]⟩
    | none =>
      simp only [hd] at h
      obtain ⟨k1, hk1, hk2⟩ := ih _ h
      exact ⟨k1, List.mem_cons_of_mem _ hk1, hk2⟩

theorem dialAll_lookup_of_not_mem (dial : String → Option String) (ks : List String)
    (s : Stream) (k : String) (hk : k ∉ ks) :
    (dialAll dial ks s).2.connections.lookup k = s.connections.lookup k := by
  induction ks generalizing s with
  | nil => simp [dialAll]
  | cons k0 ks ih =>
    simp only [dialAll]
    have hne : k ≠ k0 := fun h => hk (h ▸ List.mem_cons_self _ _)
    have hks : k ∉ ks := fun h => hk (List.mem_cons_of_mem _ h)
    cases hd : dial k0 with
    | some err => simp
    | none =>
      simp only
      rw [ih _ hks]
      exact AList.lookup_insert_ne hne

theorem dialAll_fresh (dial : String → Option String) (ks : List String) (s : Stream)
    (hnd : ks.Nodup) (c : Nat) (hlo : s.nextConn ≤ c)
    (hhi : c < (dialAll dial ks s).2.nextConn) :
    ∃ k ∈ ks, (dialAll dial ks s).2.connections.lookup k = some c := by
  induction ks generalizing s with
  | nil => simp [dialAll] at hhi; omega
  | cons k ks ih =>
    simp only [dialAll] at hhi ⊢
    obtain ⟨hk, hnd1⟩ := List.nodup_cons.mp hnd
    cases hd : dial k with
    | some err => simp [hd] at hhi; omega
    | none =>
      simp only [hd] at hhi ⊢
      by_cases hc : c = s.nextConn
      · refine ⟨k, List.mem_cons_self _ _, ?_⟩
        rw [dialAll_lookup_of_not_mem dial ks _ k hk, hc]
        exact AList.lookup_insert _
      · obtain ⟨k1, hk1, hk2⟩ := ih
          { s with connections := s.connections.insert k s.nextConn,
                   nextConn := s.nextConn + 1 } hnd1 (by simp only; omega) hhi
        exact ⟨k1, List.mem_cons_of_mem _ hk1, hk2⟩

theorem dialAll_ok (dial : String → Option String) (ks : List String) (s : Stream)
    (h : (dialAll dial ks s).1 = none) :
    (∀ k ∈ ks, dial k = none) ∧ ∀ k ∈ ks, k ∈ (dialAll dial ks s).2.connections := by
  induction ks generalizing s with
  | nil => simp
  | cons k ks ih =>
    simp only [dialAll] at h ⊢
    cases hd : dial k with
    | some e => simp [hd] at h
    | none =>
      simp only [hd] at h ⊢
      obtain ⟨h1, h2⟩ := ih _ h
      refine ⟨?_, ?_⟩
      · intro k1 hk1
        rcases List.mem_cons.mp hk1 with rfl | hk1
        · exact hd
        · exact h1 k1 hk1
      · intro k1 hk1
        by_cases hmem : k1 ∈ ks
        · exact h2 k1 hmem
        · rcases List.mem_cons.mp hk1 with rfl | hk1
          · rw [← AList.lookup_isSome, dialAll_lookup_of_not_mem dial ks _ k1 hmem]
            simp [AList.lookup_insert]
          · exact absurd hk1 hmem

theorem dialAll_fails (dial : String → Option String) (ks : List String) (s : Stream)
    (h : ∃ k ∈ ks, dial k ≠ none) : ∃ err, (dialAll dial ks s).1 = some err := by
  cases hr : (dialAll dial ks s).1 with
  | some err => exact ⟨err, rfl⟩
  | none =>
    obtain ⟨k, hk, hne⟩ := h
    exact absurd ((dialAll_ok dial ks s hr).1 k hk) hne

/-! ## The rollback loops -/

theorem closeConns_eq (l : List Conn) (s : Stream) :
    closeConns l s = { s with closedConns := l.reverse ++ s.closedConns } := by
  induction l generalizing s with
  | nil => simp [closeConns]
  | cons c l ih => simp [closeConns, ih, closeConn]

theorem closeChans_ret (l : List Chan) (s s1 : Stream) (h : closeChans l s = .ret () s1) :
    (∀ c ∈ l, ∃ id, c = some id ∧ id ∈ s1.closedChans) ∧
    (∀ id ∈ s.closedChans, id ∈ s1.closedChans) ∧
    s1 = { s with closedChans := s1.closedChans } := by
  induction l generalizing s with
  | nil =>
    simp only [closeChans, Outcome.ret.injEq, true_and] at h
    subst h
    simp
  | cons c l ih =>
    simp only [closeChans] at h
    cases c with
    | none => simp [closeChan] at h
    | some id =>
      by_cases hid : id ∈ s.closedChans
      · simp [closeChan, hid] at h
      · simp only [closeChan, hid, if_false] at h
        obtain ⟨h1, h2, h3⟩ := ih _ h
        refine ⟨?_, ?_, ?_⟩
        · intro c hc
          rcases List.mem_cons.mp hc with rfl | hc
          · exact ⟨id, rfl, h2 id (List.mem_cons_self _ _)⟩
          · exact h1 c hc
        · intro i hi
          exact h2 i (List.mem_cons_of_mem _ hi)
        · rw [h3]

theorem closeChans_returns (l : List Chan) (s : Stream)
    (hopen : ∀ c ∈ l, ∃ id, c = some id ∧ id ∉ s.closedChans) (hnd : l.Nodup) :
    ∃ s1, closeChans l s = .ret () s1 := by
  induction l generalizing s with
  | nil => exact ⟨s, rfl⟩
  | cons c l ih =>
    obtain ⟨hc, hnd1⟩ := List.nodup_cons.mp hnd
    obtain ⟨id, rfl, hid⟩ := hopen c (List.mem_cons_self _ _)
    simp only [closeChans, closeChan, hid, if_false]
    apply ih
    · intro c1 hc1
      obtain ⟨id1, rfl, hid1⟩ := hopen c1 (List.mem_cons_of_mem _ hc1)
      refine ⟨id1, rfl, ?_⟩
      simp only [List.mem_cons, not_or]
      refine ⟨?_, hid1⟩
      rintro rfl
      exact hc hc1
    · exact hnd1

theorem closeChans_outcome (l : List Chan) (s : Stream) :
    (∃ s1, closeChans l s = .ret () s1) ∨
    (∃ s1, closeChans l s = .panic .closeNilChannel s1) ∨
    (∃ s1, closeChans l s = .panic .closeClosedChannel s1) := by
  induction l generalizing s with
  | nil => exact Or.inl ⟨s, rfl⟩
  | cons c l ih =>
    cases c with
    | none => exact Or.inr (Or.inl ⟨s, by simp [closeChans, closeChan]⟩)
    | some id =>
      by_cases hid : id ∈ s.closedChans
      · exact Or.inr (Or.inr ⟨s, by simp [closeChans, closeChan, hid]⟩)
      · simp only [closeChans, closeChan, hid, if_false]
        exact ih _

/-! ## Receive when a dial fails -/

theorem receiveStart_idle (s : Stream) (w : World) (hmu : s.mu = false)
    (hconn : s.connected = false) :
    receiveStart s w =
      match dialAll w.dial (rangeOrder w.dialOrder s.subscriptions.keys) (dialStart s) with
      | (some err, s3) =>
        match rollback s3 w with
        | .ret _ s5 => .aborted (.ret (some err) s5.unlock)
        | .panic f s5 => .aborted (.panic f s5)
        | .blocked s5 => .aborted (.blocked s5)
      | (none, s3) =>
        .running (spawnTasks s3 (rangeOrder w.spawnOrder s3.connections.entries))
          ({ s3 with spawned := s3.spawned ++
              spawnTasks s3 (rangeOrder w.spawnOrder s3.connections.entries) }).unlock := by
  simp only [receiveStart, lock_free s hmu, hconn]
  rfl

theorem mem_vals_of_lookup {V : Type} (m : GoMap V) (ns : List Nat) (k : String) (v : V)
    (h : m.lookup k = some v) : v ∈ (rangeOrder ns m.entries).map (·.2) := by
  have hm : (⟨k, v⟩ : Sigma fun _ : String => V) ∈ m.entries :=
    AList.mem_lookup_iff.mp (by rw [h]; exact rfl)
  exact List.mem_map.mpr ⟨⟨k, v⟩, (mem_rangeOrder ns _ _).mpr hm, rfl⟩

theorem rollback_ret (s s5 : Stream) (w : World) (h : rollback s w = .ret () s5) :
    s5 = { s with closedConns := s5.closedConns, closedChans := s5.closedChans } ∧
    (∀ k c, s.connections.lookup k = some c → c ∈ s5.closedConns) ∧
    (∀ c ∈ s.closedConns, c ∈ s5.closedConns) ∧
    (∀ k c, s.subscriptions.lookup k = some c → ∃ id, c = some id ∧ id ∈ s5.closedChans) := by
  simp only [rollback, closeConns_eq] at h
  obtain ⟨h1, _, h3⟩ := closeChans_ret _ _ _ h
  have hcc : s5.closedConns =
      ((rangeOrder w.connCloseOrder s.connections.entries).map (·.2)).reverse
        ++ s.closedConns := by
    rw [h3]
  refine ⟨?_, ?_, ?_, ?_⟩
  · rw [h3]
  · intro k c hk
    rw [hcc]
    exact List.mem_append_left _ (List.mem_reverse.mpr (mem_vals_of_lookup _ _ k c hk))
  · intro c hc
    rw [hcc]
    exact List.mem_append_right _ hc
  · intro k c hk
    exact h1 c (mem_vals_of_lookup _ _ k c hk)

theorem rollback_returns (s : Stream) (w : World)
    (hopen : ∀ e ∈ s.subscriptions.entries, ∃ id, e.2 = some id ∧ id ∉ s.closedChans)
    (hnd : (s.subscriptions.entries.map (·.2)).Nodup) :
    ∃ s5, rollback s w = .ret () s5 := by
  simp only [rollback, closeConns_eq]
  apply closeChans_returns
  · intro c hc
    obtain ⟨e, he, rfl⟩ := List.mem_map.mp hc
    exact hopen e ((mem_rangeOrder _ _ _).mp he)
  · exact ((rangeOrder_perm _ _).map _).nodup_iff.mpr hnd

theorem Receive_dial_fail (s : Stream) (w : World) (hmu : s.mu = false)
    (hconn : s.connected = false) (err : String)
    (hd : (dialAll w.dial (rangeOrder w.dialOrder s.subscriptions.keys) (dialStart s)).1
      = some err) :
    Receive s w =
      match rollback
        (dialAll w.dial (rangeOrder w.dialOrder s.subscriptions.keys) (dialStart s)).2 w with
      | .ret _ s5 => .ret (some err) s5.unlock
      | .panic f s5 => .panic f s5
      | .blocked s5 => .blocked s5 := by
  rw [Receive, receiveStart_idle s w hmu hconn]
  generalize dialAll w.dial (rangeOrder w.dialOrder s.subscriptions.keys) (dialStart s) = p at hd
  obtain ⟨r, s3⟩ := p
  simp only at hd
  subst hd
  simp only
  cases rollback s3 w <;> rfl

theorem Receive_dial_fail_spec (s : Stream) (w : World) (hmu : s.mu = false)
    (hconn : s.connected = false)
    (hfail : ∃ k ∈ s.subscriptions.keys, w.dial k ≠ none) :
    ((∀ e ∈ s.subscriptions.entries, ∃ id, e.2 = some id ∧ id ∉ s.closedChans) →
      (s.subscriptions.entries.map (·.2)).Nodup → ∃ r s1, Receive s w = .ret r s1) ∧
    ∀ r s1, Receive s w = .ret r s1 →
      (∃ k ∈ s.subscriptions.keys, ∃ err, w.dial k = some err ∧ r = some err) ∧
      (∀ c, s.nextConn ≤ c → c < s1.nextConn → c ∈ s1.closedConns) ∧
      (∀ k c, s1.connections.lookup k = some c → c ∈ s1.closedConns) ∧
      (∀ k c, s.subscriptions.lookup k = some c → ∃ id, c = some id ∧ id ∈ s1.closedChans) ∧
      s1.spawned = s.spawned ∧ s1.subscriptions = s.subscriptions ∧
      s1.connected = true ∧ s1.mu = false := by
  obtain ⟨err, herr⟩ := dialAll_fails w.dial (rangeOrder w.dialOrder s.subscriptions.keys)
    (dialStart s) (by
      obtain ⟨k, hk, hne⟩ := hfail
      exact ⟨k, (mem_rangeOrder _ _ _).mpr hk, hne⟩)
  have hR := Receive_dial_fail s w hmu hconn err herr
  obtain ⟨f1, f2, -, f4, -, f6, -, -⟩ :=
    dialAll_frame w.dial (rangeOrder w.dialOrder s.subscriptions.keys) (dialStart s)
  have hfresh := dialAll_fresh w.dial (rangeOrder w.dialOrder s.subscriptions.keys)
    (dialStart s) (rangeOrder_nodup _ _ s.subscriptions.keys_nodup)
  obtain ⟨k0, hk0, hk0e⟩ := dialAll_error w.dial _ (dialStart s) err herr
  generalize (dialAll w.dial (rangeOrder w.dialOrder s.subscriptions.keys) (dialStart s)).2
    = s3 at hR f1 f2 f4 f6 hfresh
  have g1 : s3.subscriptions = s.subscriptions := f1
  have g4 : s3.closedChans = s.closedChans := f4
  have g6 : s3.spawned = s.spawned := f6
  have g2 : s3.connected = true := f2
  refine ⟨?_, ?_⟩
  · intro hopen hnd
    obtain ⟨s5, h5⟩ := rollback_returns s3 w (by rw [g1, g4]; exact hopen) (by rw [g1]; exact hnd)
    exact ⟨some err, s5.unlock, by rw [hR, h5]⟩
  · intro r s1 hret
    rw [hR] at hret
    cases hrb : rollback s3 w with
    | panic f s5 => simp [hrb] at hret
    | blocked s5 => simp [hrb] at hret
    | ret u s5 =>
      simp only [hrb, Outcome.ret.injEq] at hret
      obtain ⟨rfl, rfl⟩ := hret
      obtain ⟨e1, e2, -, e4⟩ := rollback_ret s3 s5 w hrb
      have hn : s5.nextConn = s3.nextConn := by rw [e1]
      have hc : s5.connections = s3.connections := by rw [e1]
      have hs : s5.spawned = s3.spawned := by rw [e1]
      have hsub : s5.subscriptions = s3.subscriptions := by rw [e1]
      have hcon : s5.connected = s3.connected := by rw [e1]
      refine ⟨⟨k0, (mem_rangeOrder _ _ _).mp hk0, err, hk0e, rfl⟩, ?_, ?_, ?_, ?_, ?_, ?_, rfl⟩
      · intro c hlo hhi
        obtain ⟨k, -, hk⟩ := hfresh c hlo (by
          have : s5.unlock.nextConn = s5.nextConn := rfl
          omega)
        exact e2 k c hk
      · intro k c hk
        have : s5.unlock.connections = s5.connections := rfl
        rw [this, hc] at hk
        exact e2 k c hk
      · intro k c hk
        rw [← g1] at hk
        exact e4 k c hk
      · show s5.spawned = s.spawned
        rw [hs, g6]
      · show s5.subscriptions = s.subscriptions
        rw [hsub, g1]
      · show s5.connected = true
        rw [hcon, g2]

theorem Receive_dial_fail_outcome (s : Stream) (w : World) (hmu : s.mu = false)
    (hconn : s.connected = false)
    (hfail : ∃ k ∈ s.subscriptions.keys, w.dial k ≠ none) :
    (∃ r s1, Receive s w = .ret r s1) ∨
    (∃ s1, Receive s w = .panic .closeNilChannel s1) ∨
    (∃ s1, Receive s w = .panic .closeClosedChannel s1) := by
  obtain ⟨err, herr⟩ := dialAll_fails w.dial (rangeOrder w.dialOrder s.subscriptions.keys)
    (dialStart s) (by
      obtain ⟨k, hk, hne⟩ := hfail
      exact ⟨k, (mem_rangeOrder _ _ _).mpr hk, hne⟩)
  rw [Receive_dial_fail s w hmu hconn err herr]
  generalize (dialAll w.dial (rangeOrder w.dialOrder s.subscriptions.keys) (dialStart s)).2
    = s3
  rcases closeChans_outcome
    ((rangeOrder w.subCloseOrder
      (closeConns ((rangeOrder w.connCloseOrder s3.connections.entries).map (·.2))
        s3).subscriptions.entries).map (·.2))
    (closeConns ((rangeOrder w.connCloseOrder s3.connections.entries).map (·.2)) s3)
    with ⟨s5, h5⟩ | ⟨s5, h5⟩ | ⟨s5, h5⟩
  · left
    have h : rollback s3 w = .ret () s5 := h5
    rw [h]
    exact ⟨_, _, rfl⟩
  · right; left
    have h : rollback s3 w = .panic .closeNilChannel s5 := h5
    rw [h]
    exact ⟨_, rfl⟩
  · right; right
    have h : rollback s3 w = .panic .closeClosedChannel s5 := h5
    rw [h]
    exact ⟨_, rfl⟩

/-- C1: when a dial fails inside Receive (the call starts idle with the mutex
free and some registered pair has a failing dial), Receive returns as soon as
the registered channels can all be closed (each is a channel object, open, and
registered once), and whenever it returns: it returns the error of a failed
dial, every connection opened in this pass is closed, every connection of the
connection map is closed, every registered channel is closed, and no task was
started. -/
theorem Receive_dial_failure_rolls_back (s : Stream) (w : World) (hmu : s.mu = false)
    (hconn : s.connected = false)
    (hfail : ∃ k ∈ s.subscriptions.keys, w.dial k ≠ none) :
    ((∀ e ∈ s.subscriptions.entries, ∃ id, e.2 = some id ∧ id ∉ s.closedChans) →
      (s.subscriptions.entries.map (·.2)).Nodup → ∃ r s1, Receive s w = .ret r s1) ∧
    ∀ r s1, Receive s w = .ret r s1 →
      (∃ k ∈ s.subscriptions.keys, ∃ err, w.dial k = some err ∧ r = some err) ∧
      (∀ c, s.nextConn ≤ c → c < s1.nextConn → c ∈ s1.closedConns) ∧
      (∀ k c, s1.connections.lookup k = some c → c ∈ s1.closedConns) ∧
      (∀ k c, s.subscriptions.lookup k = some c → ∃ id, c = some id ∧ id ∈ s1.closedChans) ∧
      s1.spawned = s.spawned := by
  obtain ⟨h1, h2⟩ := Receive_dial_fail_spec s w hmu hconn hfail
  refine ⟨h1, ?_⟩
  intro r s1 hret
  obtain ⟨a1, a2, a3, a4, a5, -⟩ := h2 r s1 hret
  exact ⟨a1, a2, a3, a4, a5⟩

/-- Witness of C1: two pairs with two open channels, the dial of `eth_jpy`
fails after the dial of `btc_jpy` opened connection 0. -/
theorem Receive_dial_failure_rolls_back_witness :
    twoSubs.mu = false ∧ twoSubs.connected = false ∧
    ethDownWorld.dial "eth_jpy" = some "bad handshake" ∧
    Receive twoSubs ethDownWorld = .ret (some "bad handshake")
      { twoSubs with
        connections := (∅ : GoMap Conn).insert "btc_jpy" 0, connected := true,
        closedChans := [0, 1], closedConns := [0], nextConn := 1 } ∧
    (∃ r s1, Receive twoSubs ethDownWorld = .ret r s1) ∧
    (∃ k ∈ twoSubs.subscriptions.keys, ∃ err,
      ethDownWorld.dial k = some err ∧ some "bad handshake" = some err) :=
  ⟨rfl, rfl, rfl, rfl,
    (Receive_dial_failure_rolls_back twoSubs ethDownWorld rfl rfl
      ⟨"eth_jpy", by decide, by decide⟩).1 (by decide) (by decide),
    ((Receive_dial_failure_rolls_back twoSubs ethDownWorld rfl rfl
      ⟨"eth_jpy", by decide, by decide⟩).2 _ _ rfl).1⟩

/-! ## The cleanup of `Receive` -/

theorem goMap_eq_empty {V : Type} (m : GoMap V) (h : ∀ k, k ∉ m) : m = ∅ := by
  apply AList.ext
  rw [AList.empty_entries]
  cases he : m.entries with
  | nil => rfl
  | cons e rest =>
    exfalso
    apply h e.1
    rw [AList.mem_keys, AList.keys, List.keys, he]
    exact List.mem_cons_self _ _

theorem cleanupConns_mem (l : List (Sigma fun _ : String => Conn)) (s : Stream) (k : String) :
    k ∈ (cleanupConns l s).connections ↔ k ∈ s.connections ∧ k ∉ l.map (·.1) := by
  induction l generalizing s with
  | nil => simp [cleanupConns]
  | cons e rest ih =>
    simp only [cleanupConns, closeConn]
    rw [ih]
    simp only [AList.mem_erase, List.map_cons, List.mem_cons, not_or]
    tauto

theorem cleanupConns_frame (l : List (Sigma fun _ : String => Conn)) (s : Stream) :
    (cleanupConns l s).subscriptions = s.subscriptions ∧
    (cleanupConns l s).connected = s.connected ∧
    (cleanupConns l s).mu = s.mu ∧
    (cleanupConns l s).closedChans = s.closedChans ∧
    (cleanupConns l s).spawned = s.spawned ∧
    (cleanupConns l s).delivered = s.delivered := by
  induction l generalizing s with
  | nil => simp [cleanupConns]
  | cons e rest ih =>
    simp only [cleanupConns, closeConn]
    obtain ⟨h1, h2, h3, h4, h5, h6⟩ := ih
      { s with closedConns := e.2 :: s.closedConns, connections := s.connections.erase e.1 }
    exact ⟨h1, h2, h3, h4, h5, h6⟩

theorem cleanupConns_empty (ns : List Nat) (s : Stream) :
    (cleanupConns (rangeOrder ns s.connections.entries) s).connections = ∅ := by
  apply goMap_eq_empty
  intro k hk
  rw [cleanupConns_mem] at hk
  obtain ⟨hk1, hk2⟩ := hk
  apply hk2
  rw [AList.mem_keys, AList.keys, List.keys] at hk1
  obtain ⟨e, he, rfl⟩ := List.mem_map.mp hk1
  exact List.mem_map.mpr ⟨e, (mem_rangeOrder _ _ _).mpr he, rfl⟩

theorem receiveFinish_spec (err : Option String) (s : Stream) (w : World) (hmu : s.mu = false) :
    ∃ s1, receiveFinish err s w = .ret err s1 ∧ s1.connections = ∅ ∧
      s1.connected = s.connected ∧ s1.mu = false ∧ s1.subscriptions = s.subscriptions := by
  refine ⟨_, by rw [receiveFinish, lock_free s hmu], ?_, ?_, rfl, ?_⟩
  · exact cleanupConns_empty w.cleanupOrder { s with mu := true }
  · exact (cleanupConns_frame _ _).2.1
  · exact (cleanupConns_frame _ _).1

theorem receiveFinish_ret (err : Option String) (s : Stream) (w : World) (r : Option String)
    (s1 : Stream) (h : receiveFinish err s w = .ret r s1) :
    r = err ∧ s1.connections = ∅ ∧ s1.connected = s.connected ∧ s1.mu = false ∧
      s1.subscriptions = s.subscriptions := by
  cases hmu : s.mu with
  | true => simp [receiveFinish, lock_held s hmu] at h
  | false =>
    obtain ⟨s2, h2, h3, h4, h5, h6⟩ := receiveFinish_spec err s w hmu
    rw [h2] at h
    simp only [Outcome.ret.injEq] at h
    obtain ⟨rfl, rfl⟩ := h
    exact ⟨rfl, h3, h4, h5, h6⟩

theorem Receive_started (s : Stream) (w : World) (hmu : s.mu = false)
    (hconn : s.connected = true) :
    Receive s w = .ret (some "already started") { s with mu := true } := by
  simp [Receive, receiveStart, lock_free s hmu, hconn]

/-! ## The tasks -/

theorem unlock_lock (s : Stream) (hmu : s.mu = false) :
    Stream.unlock { s with mu := true } = s := by
  cases s
  simp only [Stream.unlock] at hmu ⊢
  simp [hmu]

theorem keepalive_tagged (pair : String) (evs : List KeepaliveEvent) (e : String)
    (h : keepalive pair evs = some (some e)) : ∃ err, e = wrap err ("pair: " ++ pair) := by
  induction evs with
  | nil => simp [keepalive] at h
  | cons ev evs ih =>
    cases ev with
    | done => simp [keepalive] at h
    | tick r =>
      cases r with
      | none => exact ih (by simpa [keepalive] using h)
      | some err =>
        simp only [keepalive, Option.some.injEq] at h
        exact ⟨err, h.symm⟩

theorem readerIter_deliver (pair : String) (c : Chan) (i : ReadStep) (s : Stream)
    (res : StreamResponse) (hmu : s.mu = false) (hdb : i.doneBefore = false)
    (hr : i.read = .ok res) (hda : i.doneAfter = false) :
    readerIter pair c i s =
      if s.connected then
        match chanSend c res i.ready { s with mu := true } with
        | .ret _ s2 => .ret none s2.unlock
        | .panic f s2 => .panic f s2
        | .blocked s2 => .blocked s2
      else .ret none s := by
  unfold readerIter
  rw [hdb, hr, hda, lock_free s hmu]
  simp only [Bool.false_eq_true, if_false]
  by_cases hc : s.connected = true
  · rw [if_pos hc, if_pos hc]
  · rw [if_neg hc, if_neg hc, unlock_lock s hmu]

theorem chanSend_ret (c : Chan) (res : StreamResponse) (ready : Bool) (s s2 : Stream) (u : Unit)
    (h : chanSend c res ready s = .ret u s2) :
    ∃ id, c = some id ∧ id ∉ s.closedChans ∧ ready = true ∧
      s2 = { s with delivered := s.delivered ++ [(id, res)] } := by
  cases c with
  | none => simp [chanSend] at h
  | some id =>
    by_cases hid : id ∈ s.closedChans
    · simp [chanSend, hid] at h
    · cases ready with
      | false => simp [chanSend, hid] at h
      | true =>
        simp only [chanSend, hid, if_false, if_true, Outcome.ret.injEq, true_and] at h
        exact ⟨id, rfl, hid, rfl, h.symm⟩

theorem chanSend_state (c : Chan) (res : StreamResponse) (ready : Bool) (s : Stream) :
    (∀ f s2, chanSend c res ready s = .panic f s2 → s2 = s) ∧
    (∀ s2, chanSend c res ready s = .blocked s2 → s2 = s) := by
  cases c with
  | none => simp [chanSend]
  | some id =>
    by_cases hid : id ∈ s.closedChans
    · simp [chanSend, hid]
    · cases ready <;> simp [chanSend, hid]

theorem readerIter_ret (pair : String) (c : Chan) (i : ReadStep) (s s1 : Stream)
    (v : Option (Option String)) (h : readerIter pair c i s = .ret v s1) :
    s1 = { s with delivered := s1.delivered } ∧
    ∀ e, v = some (some e) → ∃ err, e = wrap err ("pair: " ++ pair) := by
  cases hdb : i.doneBefore with
  | true =>
    simp only [readerIter, hdb, if_true, Outcome.ret.injEq] at h
    obtain ⟨rfl, rfl⟩ := h
    simp
  | false =>
    cases hr : i.read with
    | error err =>
      unfold readerIter at h
      rw [hdb, hr] at h
      simp only [Bool.false_eq_true, if_false, Outcome.ret.injEq] at h
      obtain ⟨rfl, rfl⟩ := h
      refine ⟨rfl, ?_⟩
      intro e he
      simp only [Option.some.injEq] at he
      exact ⟨err, he.symm⟩
    | ok res =>
      cases hda : i.doneAfter with
      | true =>
        unfold readerIter at h
        rw [hdb, hr, hda] at h
        simp only [Bool.false_eq_true, if_false, if_true, Outcome.ret.injEq] at h
        obtain ⟨rfl, rfl⟩ := h
        simp
      | false =>
        cases hmu : s.mu with
        | true =>
          unfold readerIter at h
          rw [hdb, hr, hda, lock_held s hmu] at h
          simp at h
        | false =>
          rw [readerIter_deliver pair c i s res hmu hdb hr hda] at h
          by_cases hc : s.connected = true
          · rw [if_pos hc] at h
            cases hs : chanSend c res i.ready { s with mu := true } with
            | panic f s2 => rw [hs] at h; simp at h
            | blocked s2 => rw [hs] at h; simp at h
            | ret u s2 =>
              rw [hs] at h
              simp only [Outcome.ret.injEq] at h
              obtain ⟨rfl, rfl⟩ := h
              obtain ⟨id, -, -, -, rfl⟩ := chanSend_ret c res i.ready _ s2 u hs
              refine ⟨?_, by simp⟩
              cases s
              simp_all [Stream.unlock]
          · rw [if_neg hc] at h
            simp only [Outcome.ret.injEq] at h
            obtain ⟨rfl, rfl⟩ := h
            refine ⟨?_, by simp⟩
            cases s
            simp_all

theorem reader_ret (pair : String) (c : Chan) (steps : List ReadStep) (s s1 : Stream)
    (r : Option String) (h : reader pair c steps s = .ret r s1) :
    s1 = { s with delivered := s1.delivered } ∧
    ∀ e, r = some e → ∃ err, e = wrap err ("pair: " ++ pair) := by
  induction steps generalizing s with
  | nil => simp [reader] at h
  | cons i rest ih =>
    simp only [reader] at h
    cases hi : readerIter pair c i s with
    | panic f s2 => simp [hi] at h
    | blocked s2 => simp [hi] at h
    | ret v s2 =>
      obtain ⟨e1, e2⟩ := readerIter_ret pair c i s s2 v hi
      cases v with
      | none =>
        simp only [hi] at h
        obtain ⟨g1, g2⟩ := ih s2 h
        refine ⟨?_, g2⟩
        rw [g1, e1]
      | some r2 =>
        simp only [hi, Outcome.ret.injEq] at h
        obtain ⟨rfl, rfl⟩ := h
        refine ⟨e1, ?_⟩
        intro e he
        exact e2 e (by rw [he])

theorem runTask_ret (w : World) (t : Task) (s s1 : Stream) (r : Option String)
    (h : runTask w t s = .ret r s1) :
    s1 = { s with delivered := s1.delivered } ∧
    ∀ e, r = some e → ∃ err, e = wrap err ("pair: " ++ t.pair) := by
  cases t with
  | keepalive pair conn =>
    simp only [runTask] at h
    cases hk : keepalive pair (w.ticks pair) with
    | none => simp [hk] at h
    | some r2 =>
      simp only [hk, Outcome.ret.injEq] at h
      obtain ⟨rfl, rfl⟩ := h
      refine ⟨rfl, ?_⟩
      intro e he
      exact keepalive_tagged pair _ e (by rw [hk, he])
  | reader pair conn c =>
    simp only [runTask] at h
    exact reader_ret pair c _ s s1 r h

theorem wgWait_ret (w : World) (ts : List Task) (first : Option String) (s s1 : Stream)
    (r : Option String) (h : wgWait w ts first s = .ret r s1) :
    s1 = { s with delivered := s1.delivered } ∧
    ∀ e, r = some e → first = some e ∨ ∃ t ∈ ts, ∃ err, e = wrap err ("pair: " ++ t.pair) := by
  induction ts generalizing s first with
  | nil =>
    simp only [wgWait, Outcome.ret.injEq] at h
    obtain ⟨rfl, rfl⟩ := h
    exact ⟨rfl, fun e he => Or.inl he⟩
  | cons t ts ih =>
    simp only [wgWait] at h
    cases ht : runTask w t s with
    | panic f s2 => simp [ht] at h
    | blocked s2 => simp [ht] at h
    | ret r2 s2 =>
      simp only [ht] at h
      obtain ⟨e1, e2⟩ := runTask_ret w t s s2 r2 ht
      obtain ⟨g1, g2⟩ := ih _ s2 h
      refine ⟨by rw [g1, e1], ?_⟩
      intro e he
      rcases g2 e he with hf | ⟨t1, ht1, err, herr⟩
      · cases first with
        | some f0 =>
          left
          simpa using hf
        | none =>
          right
          simp only [Option.isSome_none, Bool.false_eq_true, if_false] at hf
          obtain ⟨err, herr⟩ := e2 e hf
          exact ⟨t, List.mem_cons_self _ _, err, herr⟩
      · exact Or.inr ⟨t1, List.mem_cons_of_mem _ ht1, err, herr⟩

/-! ## Receive when the tasks were started -/

theorem receiveStart_running (s : Stream) (w : World) (tasks : List Task) (s0 : Stream)
    (hs : receiveStart s w = .running tasks s0) :
    s.mu = false ∧ s.connected = false ∧
    (dialAll w.dial (rangeOrder w.dialOrder s.subscriptions.keys) (dialStart s)).1 = none ∧
    tasks = spawnTasks
      (dialAll w.dial (rangeOrder w.dialOrder s.subscriptions.keys) (dialStart s)).2
      (rangeOrder w.spawnOrder
        (dialAll w.dial (rangeOrder w.dialOrder s.subscriptions.keys)
          (dialStart s)).2.connections.entries) ∧
    s0.connected = true ∧ s0.mu = false ∧ s0.subscriptions = s.subscriptions := by
  cases hmu : s.mu with
  | true => simp [receiveStart, lock_held s hmu] at hs
  | false =>
    cases hconn : s.connected with
    | true => simp [receiveStart, lock_free s hmu, hconn] at hs
    | false =>
      rw [receiveStart_idle s w hmu hconn] at hs
      obtain ⟨f1, f2, -⟩ :=
        dialAll_frame w.dial (rangeOrder w.dialOrder s.subscriptions.keys) (dialStart s)
      generalize dialAll w.dial (rangeOrder w.dialOrder s.subscriptions.keys) (dialStart s)
        = p at hs f1 f2
      obtain ⟨r, s3⟩ := p
      cases r with
      | some err =>
        simp only at hs
        cases hrb : rollback s3 w <;> rw [hrb] at hs <;> simp at hs
      | none =>
        simp only [StartResult.running.injEq] at hs
        obtain ⟨rfl, rfl⟩ := hs
        exact ⟨rfl, rfl, rfl, rfl, f2, rfl, f1⟩

theorem Receive_running_ret (s : Stream) (w : World) (tasks : List Task) (s0 : Stream)
    (hs : receiveStart s w = .running tasks s0) (r : Option String) (s1 : Stream)
    (h : Receive s w = .ret r s1) :
    s1.connections = ∅ ∧ s1.connected = true ∧ s1.mu = false ∧
    s1.subscriptions = s.subscriptions ∧
    ∀ e, r = some e → ∃ t ∈ tasks, ∃ err, e = wrap err ("pair: " ++ t.pair) := by
  obtain ⟨-, -, -, -, hc, -, hsub⟩ := receiveStart_running s w tasks s0 hs
  simp only [Receive, hs] at h
  cases hw : wgWait w (rangeOrder w.finishOrder tasks) none s0 with
  | panic f s2 => simp [hw] at h
  | blocked s2 => simp [hw] at h
  | ret err s2 =>
    simp only [hw] at h
    obtain ⟨e1, e2⟩ := wgWait_ret w _ none s0 s2 err hw
    obtain ⟨rfl, g1, g2, g3, g4⟩ := receiveFinish_ret err s2 w r s1 h
    have hc2 : s2.connected = s0.connected := by rw [e1]
    have hs2 : s2.subscriptions = s0.subscriptions := by rw [e1]
    refine ⟨g1, by rw [g2, hc2, hc], g3, by rw [g4, hs2, hsub], ?_⟩
    intro e he
    rcases e2 e he with hf | ⟨t, ht, err1, herr⟩
    · simp at hf
    · exact ⟨t, (mem_rangeOrder _ _ _).mp ht, err1, herr⟩

theorem receiveStart_cases (s : Stream) (w : World) (hmu : s.mu = false)
    (hconn : s.connected = false) :
    (∃ k ∈ s.subscriptions.keys, w.dial k ≠ none) ∨
    ∃ tasks s0, receiveStart s w = .running tasks s0 := by
  cases hd : (dialAll w.dial (rangeOrder w.dialOrder s.subscriptions.keys) (dialStart s)).1 with
  | some err =>
    left
    obtain ⟨k, hk, hke⟩ := dialAll_error w.dial _ _ err hd
    exact ⟨k, (mem_rangeOrder _ _ _).mp hk, by rw [hke]; simp⟩
  | none =>
    right
    rw [receiveStart_idle s w hmu hconn]
    generalize dialAll w.dial (rangeOrder w.dialOrder s.subscriptions.keys) (dialStart s)
      = p at hd
    obtain ⟨r, s3⟩ := p
    simp only at hd
    subst hd
    exact ⟨_, _, rfl⟩

theorem Receive_ret_connected (s : Stream) (w : World) (r : Option String) (s1 : Stream)
    (h : Receive s w = .ret r s1) :
    s1.connected = true ∧ (s.connected = false → s1.mu = false) := by
  cases hmu : s.mu with
  | true => simp [Receive, receiveStart, lock_held s hmu] at h
  | false =>
    cases hconn : s.connected with
    | true =>
      rw [Receive_started s w hmu hconn] at h
      simp only [Outcome.ret.injEq] at h
      obtain ⟨-, rfl⟩ := h
      exact ⟨hconn, by simp⟩
    | false =>
      rcases receiveStart_cases s w hmu hconn with hfail | ⟨tasks, s0, hs⟩
      · obtain ⟨-, -, -, -, -, -, h7, h8⟩ :=
          (Receive_dial_fail_spec s w hmu hconn hfail).2 r s1 h
        exact ⟨h7, fun _ => h8⟩
      · obtain ⟨-, h2, h3, -⟩ := Receive_running_ret s w tasks s0 hs r s1 h
        exact ⟨h2, fun _ => h3⟩

/-! ## AddSubscription and Close under a free or held mutex -/

theorem AddSubscription_free (s : Stream) (pair : String) (res : Chan) (hmu : s.mu = false) :
    AddSubscription s pair res =
      .ret none { s with subscriptions := s.subscriptions.insert pair res } := by
  rw [AddSubscription, lock_free s hmu]
  cases s
  simp_all [Stream.unlock]

theorem AddSubscription_held (s : Stream) (pair : String) (res : Chan) (hmu : s.mu = true) :
    AddSubscription s pair res = .blocked s := by
  rw [AddSubscription, lock_held s hmu]

theorem Close_held (s : Stream) (order : List Nat) (hmu : s.mu = true) :
    Close s order = .blocked s := by
  rw [Close, lock_held s hmu]

/-! ## C3, C2, C6: what Receive leaves behind -/

/-- C3: a call of Receive made while the connected flag is set (mutex free)
returns `already started` and leaves the registry, the connection map and the
flag as they were, but it returns with the mutex still held: the early return
has no unlock.  Every later AddSubscription, Close and reader delivery then
waits forever. -/
theorem Receive_already_started_keeps_mutex (s : Stream) (w : World) (hmu : s.mu = false)
    (hconn : s.connected = true) :
    Receive s w = .ret (some "already started") { s with mu := true } ∧
    (∀ pair res, AddSubscription { s with mu := true } pair res
      = .blocked { s with mu := true }) ∧
    (∀ order, Close { s with mu := true } order = .blocked { s with mu := true }) :=
  ⟨Receive_started s w hmu hconn, fun pair res => AddSubscription_held _ pair res rfl,
    fun order => Close_held _ order rfl⟩

/-- Witness of C3: a second Receive on a running session. -/
theorem Receive_already_started_keeps_mutex_witness :
    runningOne.mu = false ∧ runningOne.connected = true ∧
    Receive runningOne quietWorld
      = .ret (some "already started") { runningOne with mu := true } ∧
    Close { runningOne with mu := true } [] = .blocked { runningOne with mu := true } :=
  ⟨rfl, rfl, (Receive_already_started_keeps_mutex runningOne quietWorld rfl rfl).1,
    (Receive_already_started_keeps_mutex runningOne quietWorld rfl rfl).2.2 []⟩

/-- Counterexample to C2: the rejected second call returns with the connection
of the running session still in the connection map, and a call whose second
dial fails returns with the (closed) first connection still in the map. -/
theorem Receive_connections_left_counterexample :
    (∃ s1, Receive runningOne quietWorld = .ret (some "already started") s1 ∧
      s1.connections.lookup "btc_jpy" = some 0) ∧
    (∃ s1, Receive twoSubs ethDownWorld = .ret (some "bad handshake") s1 ∧
      s1.connections.lookup "btc_jpy" = some 0) :=
  ⟨⟨_, rfl, rfl⟩, ⟨_, rfl, rfl⟩⟩

/-- C2 (amended): whenever Receive returns after having started its tasks
(a task error or a clean cancellation) the connection map is empty, and
whenever it returns on a state whose connected flag was already set the
connection map is the one it found. -/
theorem Receive_connections_after_return (s : Stream) (w : World) (r : Option String)
    (s1 : Stream) (h : Receive s w = .ret r s1) :
    ((∃ tasks s0, receiveStart s w = .running tasks s0) → s1.connections = ∅) ∧
    (s.connected = true → s1.connections = s.connections) := by
  constructor
  · rintro ⟨tasks, s0, hs⟩
    exact (Receive_running_ret s w tasks s0 hs r s1 h).1
  · intro hconn
    cases hmu : s.mu with
    | true => simp [Receive, receiveStart, lock_held s hmu] at h
    | false =>
      rw [Receive_started s w hmu hconn] at h
      simp only [Outcome.ret.injEq] at h
      obtain ⟨-, rfl⟩ := h
      rfl

/-- Witness of C2 (amended): two pairs dialled, then the context is cancelled. -/
theorem Receive_connections_after_return_witness :
    ∃ s1, Receive twoSubs cancelWorld = .ret none s1 ∧
      (∃ tasks s0, receiveStart twoSubs cancelWorld = .running tasks s0) ∧
      s1.connections = ∅ :=
  ⟨_, rfl, ⟨_, _, rfl⟩,
    (Receive_connections_after_return twoSubs cancelWorld none _ rfl).1 ⟨_, _, rfl⟩⟩

/-- Counterexample to C6: after a clean completion, after a task error and
after a dial failure the connected flag is still set, and a Receive made after
registering a subscription again is rejected with `already started`. -/
theorem Receive_flag_not_reset_counterexample :
    (∃ s1, Receive twoSubs cancelWorld = .ret none s1 ∧ s1.connected = true ∧
      ∃ s2, AddSubscription s1 "btc_jpy" (some 2) = .ret none s2 ∧
        ∃ s3, Receive s2 quietWorld = .ret (some "already started") s3) ∧
    (∃ s1, Receive twoSubs readFailWorld = .ret (some "pair: btc_jpy: unexpected EOF") s1 ∧
      s1.connected = true) ∧
    (∃ s1, Receive twoSubs ethDownWorld = .ret (some "bad handshake") s1 ∧
      s1.connected = true) :=
  ⟨⟨_, rfl, rfl, _, rfl, _, rfl⟩, ⟨_, rfl, rfl⟩, ⟨_, rfl, rfl⟩⟩

/-- C6 (amended): Receive never resets the connected flag.  Whenever it
returns the flag is set, and if the call started idle then a later Receive,
also one made after registering a subscription again, is rejected with
`already started`. -/
theorem Receive_leaves_flag_set (s : Stream) (w : World) (r : Option String) (s1 : Stream)
    (h : Receive s w = .ret r s1) :
    s1.connected = true ∧
    (s.connected = false →
      (∀ w2, ∃ s3, Receive s1 w2 = .ret (some "already started") s3) ∧
      ∀ pair res w2, ∃ s2 s3, AddSubscription s1 pair res = .ret none s2 ∧
        Receive s2 w2 = .ret (some "already started") s3) := by
  obtain ⟨h1, h2⟩ := Receive_ret_connected s w r s1 h
  refine ⟨h1, ?_⟩
  intro hidle
  have hmu := h2 hidle
  refine ⟨fun w2 => ⟨_, Receive_started s1 w2 hmu h1⟩, ?_⟩
  intro pair res w2
  exact ⟨_, _, AddSubscription_free s1 pair res hmu, Receive_started _ w2 hmu h1⟩

/-- Witness of C6 (amended): a session that ends on a read error. -/
theorem Receive_leaves_flag_set_witness :
    ∃ s1, Receive twoSubs readFailWorld = .ret (some "pair: btc_jpy: unexpected EOF") s1 ∧
      s1.connected = true :=
  ⟨_, rfl, (Receive_leaves_flag_set twoSubs readFailWorld _ _ rfl).1⟩

/-! ## C7: the registry and the channel a reader is bound to -/

theorem spawnTasks_mem (s : Stream) (l : List (Sigma fun _ : String => Conn)) (t : Task) :
    t ∈ spawnTasks s l ↔
      ∃ e ∈ l, t = .keepalive e.1 e.2 ∨
        t = .reader e.1 e.2 ((s.subscriptions.lookup e.1).getD none) := by
  induction l with
  | nil => simp [spawnTasks]
  | cons e rest ih =>
    simp only [spawnTasks, List.mem_cons, ih]
    constructor
    · rintro (h | h | ⟨e1, he1, h⟩)
      · exact ⟨e, Or.inl rfl, Or.inl h⟩
      · exact ⟨e, Or.inl rfl, Or.inr h⟩
      · exact ⟨e1, Or.inr he1, h⟩
    · rintro ⟨e1, rfl | he1, h | h⟩
      · exact Or.inl h
      · exact Or.inr (Or.inl h)
      · exact Or.inr (Or.inr ⟨e1, he1, Or.inl h⟩)
      · exact Or.inr (Or.inr ⟨e1, he1, Or.inr h⟩)

theorem running_reader_bound (s : Stream) (w : World) (tasks : List Task) (s0 : Stream)
    (hs : receiveStart s w = .running tasks s0) (pair : String) :
    (∀ conn c, Task.reader pair conn c ∈ tasks →
      c = (s.subscriptions.lookup pair).getD none) ∧
    (pair ∈ s.subscriptions →
      ∃ conn, Task.reader pair conn ((s.subscriptions.lookup pair).getD none) ∈ tasks) := by
  obtain ⟨-, -, hd, ht, -, -, -⟩ := receiveStart_running s w tasks s0 hs
  obtain ⟨f1, -⟩ :=
    dialAll_frame w.dial (rangeOrder w.dialOrder s.subscriptions.keys) (dialStart s)
  have hok := (dialAll_ok w.dial _ (dialStart s) hd).2
  generalize (dialAll w.dial (rangeOrder w.dialOrder s.subscriptions.keys) (dialStart s)).2
    = s3 at ht f1 hok
  have g1 : s3.subscriptions = s.subscriptions := f1
  subst ht
  constructor
  · intro conn c hmem
    obtain ⟨e, -, h | h⟩ := (spawnTasks_mem _ _ _).mp hmem
    · simp at h
    · simp only [Task.reader.injEq] at h
      obtain ⟨rfl, -, rfl⟩ := h
      rw [g1]
  · intro hp
    have hin : pair ∈ s3.connections :=
      hok pair ((mem_rangeOrder _ _ _).mpr (AList.mem_keys.mp hp))
    rw [AList.mem_keys, AList.keys, List.keys] at hin
    obtain ⟨e, he, rfl⟩ := List.mem_map.mp hin
    refine ⟨e.2, (spawnTasks_mem _ _ _).mpr ⟨e, (mem_rangeOrder _ _ _).mpr he, Or.inr ?_⟩⟩
    rw [g1]

/-- C7: with the mutex free, AddSubscription(p, c1) followed by
AddSubscription(p, c2) both return nil and leave the client exactly as a
single AddSubscription(p, c2) does: p maps to c2 and every other entry is as
before.  When Receive then starts its tasks, there is a reader task for p, and
every reader task for p is bound to c2. -/
theorem AddSubscription_twice_keeps_last (s : Stream) (p : String) (c1 c2 : Chan)
    (hmu : s.mu = false) :
    ∃ s1 s2, AddSubscription s p c1 = .ret none s1 ∧
      AddSubscription s1 p c2 = .ret none s2 ∧
      AddSubscription s p c2 = .ret none s2 ∧
      s2.subscriptions.lookup p = some c2 ∧
      (∀ q, q ≠ p → s2.subscriptions.lookup q = s.subscriptions.lookup q) ∧
      ∀ w tasks s3, receiveStart s2 w = .running tasks s3 →
        (∃ conn, Task.reader p conn c2 ∈ tasks) ∧
        ∀ conn c, Task.reader p conn c ∈ tasks → c = c2 := by
  refine ⟨_, _, AddSubscription_free s p c1 hmu, AddSubscription_free _ p c2 hmu, ?_, ?_, ?_, ?_⟩
  · rw [AddSubscription_free s p c2 hmu]
    simp only [AList.insert_insert]
  · simp only [AList.insert_insert]
    exact AList.lookup_insert _
  · intro q hq
    simp only [AList.insert_insert]
    exact AList.lookup_insert_ne hq
  · intro w tasks s3 hs
    obtain ⟨h1, h2⟩ := running_reader_bound _ w tasks s3 hs p
    simp only [AList.insert_insert, AList.lookup_insert, Option.getD_some] at h1 h2
    exact ⟨h2 ((AList.mem_insert _).mpr (Or.inl rfl)), h1⟩

/-- Witness of C7: channel 1 then channel 2 registered for `btc_jpy`. -/
theorem AddSubscription_twice_keeps_last_witness :
    NewStream.mu = false ∧
    ∃ s1 s2, AddSubscription NewStream "btc_jpy" (some 1) = .ret none s1 ∧
      AddSubscription s1 "btc_jpy" (some 2) = .ret none s2 ∧
      AddSubscription NewStream "btc_jpy" (some 2) = .ret none s2 ∧
      s2.subscriptions.lookup "btc_jpy" = some (some 2) ∧
      (∀ q, q ≠ "btc_jpy" → s2.subscriptions.lookup q = NewStream.subscriptions.lookup q) ∧
      ∀ w tasks s3, receiveStart s2 w = .running tasks s3 →
        (∃ conn, Task.reader "btc_jpy" conn (some 2) ∈ tasks) ∧
        ∀ conn c, Task.reader "btc_jpy" conn c ∈ tasks → c = some 2 :=
  ⟨rfl, AddSubscription_twice_keeps_last NewStream "btc_jpy" (some 1) (some 2) rfl⟩

/-! ## C5, C4: delivery by the reader task -/

theorem readerIter_delivered (pair : String) (c : Chan) (i : ReadStep) (s : Stream)
    (res : StreamResponse) (hmu : s.mu = false) (hdb : i.doneBefore = false)
    (hr : i.read = .ok res) (hda : i.doneAfter = false) (hconn : s.connected = true) :
    (∀ id, c = some id → id ∉ s.closedChans → i.ready = true →
      readerIter pair c i s = .ret none { s with delivered := s.delivered ++ [(id, res)] }) ∧
    (∀ id, c = some id → id ∉ s.closedChans → i.ready = false →
      readerIter pair c i s = .blocked { s with mu := true }) ∧
    (∀ e ∈ (readerIter pair c i s).state.delivered,
      e ∈ s.delivered ∨ ∃ id, c = some id ∧ e = (id, res)) := by
  rw [readerIter_deliver pair c i s res hmu hdb hr hda, if_pos hconn]
  refine ⟨?_, ?_, ?_⟩
  · rintro id rfl hid hready
    simp only [chanSend, hid, hready, if_false, if_true]
    cases s
    simp_all [Stream.unlock]
  · rintro id rfl hid hready
    simp [chanSend, hid, hready]
  · intro e he
    cases hs : chanSend c res i.ready { s with mu := true } with
    | ret u s2 =>
      obtain ⟨id, hc, -, -, rfl⟩ := chanSend_ret c res i.ready _ s2 u hs
      rw [hs] at he
      simp only [Outcome.state, Stream.unlock, List.mem_append, List.mem_singleton] at he
      rcases he with he | he
      · exact Or.inl he
      · exact Or.inr ⟨id, hc, he⟩
    | panic f s2 =>
      rw [hs] at he
      have := (chanSend_state c res i.ready { s with mu := true }).1 f s2 hs
      subst this
      exact Or.inl he
    | blocked s2 =>
      rw [hs] at he
      have := (chanSend_state c res i.ready { s with mu := true }).2 s2 hs
      subst this
      exact Or.inl he

/-- C5: take the reader task of a pair as started by Receive, in a turn of its
loop where a message was decoded and the context is not cancelled (mutex
free).  The channel of the task is the one the registry held for the pair
when the tasks were started.  If the connected flag is clear the turn ends
with the loop going on and the state untouched: nothing is sent.  If the flag
is set, the only send is the one of this message on the channel of the task:
it completes when that channel is open and a receiver is ready, and in every
case the log of sent messages grows by at most this message on this
channel. -/
theorem reader_delivers_to_bound_channel (s0 : Stream) (w : World) (tasks : List Task)
    (s1 : Stream) (hs : receiveStart s0 w = .running tasks s1)
    (pair : String) (conn : Conn) (c : Chan) (ht : Task.reader pair conn c ∈ tasks)
    (i : ReadStep) (s : Stream) (res : StreamResponse) (hmu : s.mu = false)
    (hdb : i.doneBefore = false) (hr : i.read = .ok res) (hda : i.doneAfter = false) :
    c = (s0.subscriptions.lookup pair).getD none ∧
    (s.connected = false → readerIter pair c i s = .ret none s) ∧
    (s.connected = true →
      (∀ id, c = some id → id ∉ s.closedChans → i.ready = true →
        readerIter pair c i s
          = .ret none { s with delivered := s.delivered ++ [(id, res)] }) ∧
      (∀ e ∈ (readerIter pair c i s).state.delivered,
        e ∈ s.delivered ∨ ∃ id, c = some id ∧ e = (id, res))) := by
  refine ⟨(running_reader_bound s0 w tasks s1 hs pair).1 conn c ht, ?_, ?_⟩
  · intro hconn
    rw [readerIter_deliver pair c i s res hmu hdb hr hda, hconn]
    simp
  · intro hconn
    obtain ⟨h1, -, h3⟩ := readerIter_delivered pair c i s res hmu hdb hr hda hconn
    exact ⟨h1, h3⟩

/-- Counterexample to C4: the reader of `btc_jpy` decodes a message while no
receiver is ready on its channel.  It waits in the send with the mutex held,
and in that state AddSubscription, Close and the delivery of another reader
all wait for the mutex. -/
theorem reader_send_holds_mutex_counterexample :
    readerIter "btc_jpy" (some 0) stalledStep runningOne
      = .blocked { runningOne with mu := true } ∧
    AddSubscription { runningOne with mu := true } "eth_jpy" (some 1)
      = .blocked { runningOne with mu := true } ∧
    Close { runningOne with mu := true } [] = .blocked { runningOne with mu := true } ∧
    readerIter "eth_jpy" (some 1) readyStep { runningOne with mu := true }
      = .blocked { runningOne with mu := true } :=
  ⟨rfl, rfl, rfl, rfl⟩

/-- C4 (amended): the reader task sends while it holds the mutex.  In a turn
where a message was decoded, the context is not cancelled and the connected
flag is set (mutex free), the reader takes the mutex, reads the flag, sends,
and only then releases the mutex: when the send completes the turn ends with
the mutex free again, and when no receiver is ready the reader waits in the
send with the mutex held, so that AddSubscription, Close and the delivery of
every other reader wait too. -/
theorem reader_sends_under_mutex (pair : String) (id : Nat) (i : ReadStep) (s : Stream)
    (res : StreamResponse) (hmu : s.mu = false) (hconn : s.connected = true)
    (hdb : i.doneBefore = false) (hr : i.read = .ok res) (hda : i.doneAfter = false)
    (hopen : id ∉ s.closedChans) :
    (i.ready = true →
      readerIter pair (some id) i s
        = .ret none { s with delivered := s.delivered ++ [(id, res)] }) ∧
    (i.ready = false →
      readerIter pair (some id) i s = .blocked { s with mu := true } ∧
      (∀ p ch, AddSubscription { s with mu := true } p ch = .blocked { s with mu := true }) ∧
      (∀ order, Close { s with mu := true } order = .blocked { s with mu := true }) ∧
      ∀ pair2 c2 i2 res2, i2.doneBefore = false → i2.read = .ok res2 → i2.doneAfter = false →
        readerIter pair2 c2 i2 { s with mu := true } = .blocked { s with mu := true }) := by
  obtain ⟨h1, h2, -⟩ := readerIter_delivered pair (some id) i s res hmu hdb hr hda hconn
  refine ⟨h1 id rfl hopen, ?_⟩
  intro hready
  refine ⟨h2 id rfl hopen hready, fun p ch => AddSubscription_held _ p ch rfl,
    fun order => Close_held _ order rfl, ?_⟩
  intro pair2 c2 i2 res2 hdb2 hr2 hda2
  unfold readerIter
  rw [hdb2, hr2, hda2, lock_held _ rfl]
  simp

/-- Witness of C5: the reader of `btc_jpy` started on `oneSub`, a receiver
ready. -/
theorem reader_delivers_to_bound_channel_witness :
    receiveStart oneSub quietWorld
      = .running [.keepalive "btc_jpy" 0, .reader "btc_jpy" 0 (some 0)] runningOne ∧
    readerIter "btc_jpy" (some 0) readyStep runningOne
      = .ret none { runningOne with delivered := [(0, sampleMsg)] } ∧
    readerIter "btc_jpy" (some 0) readyStep { runningOne with connected := false }
      = .ret none { runningOne with connected := false } :=
  ⟨rfl,
    (reader_delivers_to_bound_channel oneSub quietWorld _ runningOne rfl "btc_jpy" 0 (some 0)
      (by decide) readyStep runningOne sampleMsg rfl rfl rfl rfl).2.2 rfl |>.1 0 rfl
        (by decide) rfl,
    (reader_delivers_to_bound_channel oneSub quietWorld _ runningOne rfl "btc_jpy" 0 (some 0)
      (by decide) readyStep { runningOne with connected := false } sampleMsg rfl rfl rfl
        rfl).2.1 rfl⟩

/-- Witness of C4 (amended): no receiver is ready on channel 0. -/
theorem reader_sends_under_mutex_witness :
    readerIter "btc_jpy" (some 0) stalledStep runningOne
      = .blocked { runningOne with mu := true } ∧
    readerIter "btc_jpy" (some 0) readyStep runningOne
      = .ret none { runningOne with delivered := runningOne.delivered ++ [(0, sampleMsg)] } :=
  ⟨((reader_sends_under_mutex "btc_jpy" 0 stalledStep runningOne sampleMsg rfl rfl rfl rfl rfl
      (by decide)).2 rfl).1,
    (reader_sends_under_mutex "btc_jpy" 0 readyStep runningOne sampleMsg rfl rfl rfl rfl rfl
      (by decide)).1 rfl⟩

/-! ## C8, C10: Close -/

theorem closeSubs_returns (l : List (Sigma fun _ : String => Chan)) (s : Stream)
    (hopen : ∀ e ∈ l, ∃ id, e.2 = some id ∧ id ∉ s.closedChans)
    (hnd : (l.map (·.2)).Nodup) :
    ∃ s1, closeSubs l s = .ret () s1 ∧
      (∀ k, k ∈ s1.subscriptions ↔ k ∈ s.subscriptions ∧ k ∉ l.map (·.1)) ∧
      (∀ e ∈ l, ∀ id, e.2 = some id → id ∈ s1.closedChans) ∧
      (∀ id ∈ s.closedChans, id ∈ s1.closedChans) ∧
      s1 = { s with subscriptions := s1.subscriptions, closedChans := s1.closedChans } := by
  induction l generalizing s with
  | nil => exact ⟨s, rfl, by simp, by simp, fun _ h => h, rfl⟩
  | cons e rest ih =>
    obtain ⟨id, hid, hnot⟩ := hopen e (List.mem_cons_self _ _)
    rw [List.map_cons, List.nodup_cons] at hnd
    obtain ⟨hfresh, hnd1⟩ := hnd
    have hopen1 : ∀ e1 ∈ rest, ∃ id1, e1.2 = some id1 ∧
        id1 ∉ ({ s with
          closedChans := id :: s.closedChans,
          subscriptions := (s.subscriptions.insert e.1 none).erase e.1 } : Stream).closedChans := by
      intro e1 he1
      obtain ⟨id1, hid1, hnot1⟩ := hopen e1 (List.mem_cons_of_mem _ he1)
      refine ⟨id1, hid1, ?_⟩
      simp only [List.mem_cons, not_or]
      refine ⟨?_, hnot1⟩
      rintro rfl
      apply hfresh
      rw [hid, ← hid1]
      exact List.mem_map.mpr ⟨e1, he1, rfl⟩
    obtain ⟨s1, h1, h2, h3, h4, h5⟩ := ih _ hopen1 hnd1
    refine ⟨s1, ?_, ?_, ?_, ?_, ?_⟩
    · simp only [closeSubs, closeChan, hid, hnot, if_false]
      exact h1
    · intro k
      rw [h2 k]
      simp only [AList.mem_erase, AList.mem_insert, List.map_cons, List.mem_cons, not_or]
      tauto
    · intro e1 he1 id1 hid1
      rcases List.mem_cons.mp he1 with rfl | he1
      · rw [hid] at hid1
        simp only [Option.some.injEq] at hid1
        subst hid1
        exact h4 id (List.mem_cons_self _ _)
      · exact h3 e1 he1 id1 hid1
    · intro i hi
      exact h4 i (List.mem_cons_of_mem _ hi)
    · rw [h5]

theorem Close_free (s : Stream) (order : List Nat) (hmu : s.mu = false) :
    Close s order =
      match closeSubs (rangeOrder order s.subscriptions.entries) { s with mu := true } with
      | .ret _ s2 => .ret none ({ s2 with connected := false } : Stream).unlock
      | .panic f s2 => .panic f s2.unlock
      | .blocked s2 => .blocked s2 := by
  rw [Close, lock_free s hmu]

/-- Counterexample to C8: one open channel registered for two pairs.  Every
registered channel is open, yet Close does not return: the loop closes the
channel for the first pair and panics on the second. -/
theorem Close_shared_channel_counterexample :
    sharedSubs.mu = false ∧
    sharedSubs.subscriptions.lookup "btc_jpy" = some (some 0) ∧
    sharedSubs.subscriptions.lookup "eth_jpy" = some (some 0) ∧
    sharedSubs.closedChans = [] ∧
    Close sharedSubs []
      = .panic .closeClosedChannel
          { sharedSubs with
            subscriptions := (∅ : GoMap Chan).insert "eth_jpy" (some 0),
            closedChans := [0] } :=
  ⟨rfl, rfl, rfl, rfl, rfl⟩

/-- C8 (amended): with the mutex free, every registered channel a channel
object that is still open, and no channel registered for two pairs, Close
returns nil and afterwards every channel that was in the registry is closed,
the registry is empty, the connected flag is clear and the mutex is free; the
connection map is left unchanged. -/
theorem Close_closes_registry (s : Stream) (order : List Nat) (hmu : s.mu = false)
    (hopen : ∀ e ∈ s.subscriptions.entries, ∃ id, e.2 = some id ∧ id ∉ s.closedChans)
    (hnd : (s.subscriptions.entries.map (·.2)).Nodup) :
    ∃ s1, Close s order = .ret none s1 ∧
      (∀ k id, s.subscriptions.lookup k = some (some id) → id ∈ s1.closedChans) ∧
      s1.subscriptions = ∅ ∧ s1.connected = false ∧ s1.mu = false ∧
      s1.connections = s.connections := by
  obtain ⟨s2, h1, h2, h3, -, h5⟩ :=
    closeSubs_returns (rangeOrder order s.subscriptions.entries) { s with mu := true }
      (fun e he => hopen e ((mem_rangeOrder _ _ _).mp he))
      (((rangeOrder_perm _ _).map _).nodup_iff.mpr hnd)
  refine ⟨({ s2 with connected := false } : Stream).unlock,
    by rw [Close_free s order hmu, h1], ?_, ?_, rfl, rfl, ?_⟩
  · intro k id hk
    have hm : (⟨k, some id⟩ : Sigma fun _ : String => Chan) ∈ s.subscriptions.entries :=
      AList.mem_lookup_iff.mp (by rw [hk]; exact rfl)
    exact h3 _ ((mem_rangeOrder _ _ _).mpr hm) id rfl
  · apply goMap_eq_empty
    intro k hk
    have hk1 : k ∈ s2.subscriptions := hk
    rw [h2 k] at hk1
    obtain ⟨hk2, hk3⟩ := hk1
    apply hk3
    have hk4 : k ∈ s.subscriptions := hk2
    rw [AList.mem_keys, AList.keys, List.keys] at hk4
    obtain ⟨e, he, rfl⟩ := List.mem_map.mp hk4
    exact List.mem_map.mpr ⟨e, (mem_rangeOrder _ _ _).mpr he, rfl⟩
  · show s2.connections = s.connections
    rw [h5]

/-- Witness of C8 (amended): two pairs with two open channels. -/
theorem Close_closes_registry_witness :
    Close twoSubs []
      = .ret none { twoSubs with subscriptions := ∅, closedChans := [0, 1] } ∧
    ∃ s1, Close twoSubs [] = .ret none s1 ∧
      (∀ k id, twoSubs.subscriptions.lookup k = some (some id) → id ∈ s1.closedChans) ∧
      s1.subscriptions = ∅ ∧ s1.connected = false ∧ s1.mu = false ∧
      s1.connections = twoSubs.connections :=
  ⟨rfl, Close_closes_registry twoSubs [] rfl (by decide) (by decide)⟩

/-- Counterexample to C10: three non-empty registries on which the dial of
`eth_jpy` fails and no Close panics on a closed channel.  With the nil channel
registered, the rollback of Receive panics on the close of the nil channel;
with one channel registered for two pairs, and with a channel that is already
closed, the rollback itself panics on the close of a closed channel.  In each
case Receive does not return, the mutex is still held, and the Close that
follows waits for the mutex. -/
theorem Close_after_dial_failure_counterexample :
    (nilSub.mu = false ∧ nilSub.connected = false ∧
      ethDownWorld.dial "eth_jpy" = some "bad handshake" ∧
      Receive nilSub ethDownWorld
        = .panic .closeNilChannel { nilSub with mu := true, connected := true } ∧
      Close { nilSub with mu := true, connected := true } []
        = .blocked { nilSub with mu := true, connected := true }) ∧
    (sharedSubs.mu = false ∧ sharedSubs.connected = false ∧
      Receive sharedSubs ethDownWorld
        = .panic .closeClosedChannel
            { sharedSubs with
              connections := (∅ : GoMap Conn).insert "btc_jpy" 0, connected := true,
              mu := true, closedChans := [0], closedConns := [0], nextConn := 1 } ∧
      Close
          { sharedSubs with
            connections := (∅ : GoMap Conn).insert "btc_jpy" 0, connected := true,
            mu := true, closedChans := [0], closedConns := [0], nextConn := 1 } []
        = .blocked
            { sharedSubs with
              connections := (∅ : GoMap Conn).insert "btc_jpy" 0, connected := true,
              mu := true, closedChans := [0], closedConns := [0], nextConn := 1 }) ∧
    (closedSub.mu = false ∧ closedSub.connected = false ∧
      Receive closedSub ethDownWorld
        = .panic .closeClosedChannel { closedSub with mu := true, connected := true } ∧
      Close { closedSub with mu := true, connected := true } []
        = .blocked { closedSub with mu := true, connected := true }) :=
  ⟨⟨rfl, rfl, rfl, rfl, rfl⟩, ⟨rfl, rfl, rfl, rfl⟩, ⟨rfl, rfl, rfl, rfl⟩⟩

/-- C10 (amended): take a registry in which every registered channel is a
channel object that is still open and no channel is registered for two pairs.
When a dial fails inside Receive (idle start, mutex free), Receive returns,
the registry is the one before the call, so the channels the rollback closed
are still registered, and the connected flag is set; a Close that follows, in
whatever order it visits the registry, panics on the first channel it closes,
because that channel is already closed. -/
theorem Close_after_dial_failure_panics (s : Stream) (w : World) (hmu : s.mu = false)
    (hconn : s.connected = false)
    (hfail : ∃ k ∈ s.subscriptions.keys, w.dial k ≠ none)
    (hopen : ∀ e ∈ s.subscriptions.entries, ∃ id, e.2 = some id ∧ id ∉ s.closedChans)
    (hnd : (s.subscriptions.entries.map (·.2)).Nodup) :
    ∃ r s1, Receive s w = .ret r s1 ∧
      s1.subscriptions = s.subscriptions ∧ s1.connected = true ∧
      (∀ k c, s1.subscriptions.lookup k = some c →
        ∃ id, c = some id ∧ id ∈ s1.closedChans) ∧
      ∀ order, ∃ s2, Close s1 order = .panic .closeClosedChannel s2 := by
  obtain ⟨r, s1, h⟩ := (Receive_dial_fail_spec s w hmu hconn hfail).1 hopen hnd
  obtain ⟨-, -, -, h4, -, h6, h7, h8⟩ := (Receive_dial_fail_spec s w hmu hconn hfail).2 r s1 h
  have hclosed : ∀ k c, s1.subscriptions.lookup k = some c →
      ∃ id, c = some id ∧ id ∈ s1.closedChans := by
    intro k c hk
    rw [h6] at hk
    exact h4 k c hk
  refine ⟨r, s1, h, h6, h7, hclosed, ?_⟩
  intro order
  rw [Close_free s1 order h8]
  cases hl : rangeOrder order s1.subscriptions.entries with
  | nil =>
    exfalso
    obtain ⟨k, hk, -⟩ := hfail
    have hnil := (rangeOrder_eq_nil _ _).mp hl
    rw [AList.keys, List.keys, ← h6, hnil] at hk
    simp at hk
  | cons e rest =>
    have he : e ∈ s1.subscriptions.entries :=
      (mem_rangeOrder order _ _).mp (by rw [hl]; exact List.mem_cons_self _ _)
    have hlook : s1.subscriptions.lookup e.1 = some e.2 := by
      have : e.2 ∈ s1.subscriptions.lookup e.1 := AList.mem_lookup_iff.mpr he
      exact this
    obtain ⟨id, hid, hin⟩ := hclosed e.1 e.2 hlook
    have hin2 : id ∈ ({ s1 with mu := true } : Stream).closedChans := hin
    have hc : closeSubs (e :: rest) { s1 with mu := true }
        = .panic .closeClosedChannel { s1 with mu := true } := by
      simp only [closeSubs, closeChan, hid, hin2, if_true]
    rw [hc]
    exact ⟨_, rfl⟩

/-- Witness of C10 (amended): two pairs with two open channels, the dial of
`eth_jpy` fails, then Close. -/
theorem Close_after_dial_failure_panics_witness :
    twoSubs.mu = false ∧ twoSubs.connected = false ∧
    ethDownWorld.dial "eth_jpy" = some "bad handshake" ∧
    Receive twoSubs ethDownWorld = .ret (some "bad handshake")
      { twoSubs with
        connections := (∅ : GoMap Conn).insert "btc_jpy" 0, connected := true,
        closedChans := [0, 1], closedConns := [0], nextConn := 1 } ∧
    Close { twoSubs with
        connections := (∅ : GoMap Conn).insert "btc_jpy" 0, connected := true,
        closedChans := [0, 1], closedConns := [0], nextConn := 1 } []
      = .panic .closeClosedChannel
        { twoSubs with
          connections := (∅ : GoMap Conn).insert "btc_jpy" 0, connected := true,
          closedChans := [0, 1], closedConns := [0], nextConn := 1 } ∧
    ∃ r s1, Receive twoSubs ethDownWorld = .ret r s1 ∧
      s1.subscriptions = twoSubs.subscriptions ∧ s1.connected = true ∧
      (∀ k c, s1.subscriptions.lookup k = some c →
        ∃ id, c = some id ∧ id ∈ s1.closedChans) ∧
      ∀ order, ∃ s2, Close s1 order = .panic .closeClosedChannel s2 :=
  ⟨rfl, rfl, rfl, rfl, rfl,
    Close_after_dial_failure_panics twoSubs ethDownWorld rfl rfl
      ⟨"eth_jpy", by decide, by decide⟩ (by decide) (by decide)⟩

/-! ## C9: the error of a failed dial -/

/-- C9: the error Receive returns when the dial of `eth_jpy` fails with
`bad handshake` is that error as the dialer gave it, without the
`pair: eth_jpy` tag that the keepalive and reader tasks put on their errors;
a read error on `btc_jpy` does come back tagged. -/
theorem Receive_dial_error_untagged :
    ethDownWorld.dial "eth_jpy" = some "bad handshake" ∧
    Receive twoSubs ethDownWorld = .ret (some "bad handshake")
      { twoSubs with
        connections := (∅ : GoMap Conn).insert "btc_jpy" 0, connected := true,
        closedChans := [0, 1], closedConns := [0], nextConn := 1 } ∧
    "bad handshake" ≠ wrap "bad handshake" ("pair: " ++ "eth_jpy") ∧
    wrap "bad handshake" ("pair: " ++ "eth_jpy") = "pair: eth_jpy: bad handshake" ∧
    ∃ s1, Receive twoSubs readFailWorld
      = .ret (some (wrap "unexpected EOF" ("pair: " ++ "btc_jpy"))) s1 :=
  ⟨rfl, rfl, by decide, by decide, _, rfl⟩

end Zaif
